import Mathlib

/-!
Verification development for the `lg` directory-listing tool's git-status
reconciliation engine (src/lg.c and src/lg_v2.c).

Strings are modelled as `List Char` (named `Str`), mirroring the C char
arrays.  The `sscanf` directives used by the sources (`%*c`, `%2s`, `%*s`,
`%s`, whitespace and literal directives) are modelled character-exactly by
the `scanTok` family below.  Fixed-size buffers are modelled in two parts:
the value read out of a scan is carried by unbounded `Str` (the parser
functions), while the write footprint of each scan against its fixed-size
C destination is modelled separately — `exec_capture` for the runner's
output buffer and its read ceiling, and the `tok_overflow` family for the
unbounded `%s` writes into `char path[PATH_MAX]`, which can run past that
stack buffer.
-/

/-- Strings of the C program, modelled as character lists. -/
abbrev Str : Type := List Char

/-- C `isspace` on the default locale: space, tab, newline, vertical tab,
form feed, carriage return. -/
def csIsSpace (c : Char) : Bool :=
  c = ' ' || c = '\t' || c = '\n' || c = '\x0b' || c = '\x0c' || c = '\r'

/-- Skip leading whitespace, as every `%s`-family `sscanf` directive does. -/
def dropWs (s : Str) : Str := List.dropWhile csIsSpace s

/-- `sscanf` `%s`: skip whitespace, then read a maximal non-empty run of
non-whitespace characters; fails when none is available. -/
def scanTok (s : Str) : Option (Str × Str) :=
  let t := List.takeWhile (fun c => !csIsSpace c) (dropWs s)
  if t = [] then none else some (t, List.drop t.length (dropWs s))

/-- `sscanf` `%Ns` with a width limit: like `%s` but reads at most `n`
characters of the token, leaving the rest of the token in the input. -/
def scanTokN (n : Nat) (s : Str) : Option (Str × Str) :=
  let t := List.take n (List.takeWhile (fun c => !csIsSpace c) (dropWs s))
  if t = [] then none else some (t, List.drop t.length (dropWs s))

/-- Skip `n` consecutive `%*s` fields, failing as `sscanf` does (by
returning a short assignment count) when one is missing. -/
def skipToks : Nat → Str → Option Str
  | 0, s => some s
  | n + 1, s =>
    match scanTok s with
    | none => none
    | some (_, r) => skipToks n r

/-- One status entry of the v2 program (`GitStatus` in src/lg_v2.c):
repository-relative path plus the staged/unstaged code pair. -/
structure GitStatusEntry where
  path : Str
  status_staged : Char
  status_unstaged : Char
deriving DecidableEq, Repr

/-- The v2 engine's output (`GitContext` in src/lg_v2.c): the entry list
plus the relative-path correction applied before lookup (`rel_prefix`,
modelled as `[]` when the C pointer is NULL). -/
structure GitContext where
  statuses : List GitStatusEntry
  rel_pfx : Str
deriving DecidableEq, Repr

/-- src/lg_v2.c lines 321-342: `sscanf(line, "%*c %2s %*s %*s %*s %*s %*s
%*s %s", xy, path)` applied to a `1`/`2` record.  `%*c` consumes the record
type, `%2s` reads at most two characters of the next token into `xy`
(leaving `xy[1]` as NUL when the token has a single character), six `%*s`
fields are skipped, and `%s` reads the following token as the path.  The
entry is produced only when both assignments succeed (`== 2`).  This
function models the values read; the write footprint of the unbounded `%s`
against its fixed `char path[PATH_MAX]` destination (line 323) is modelled
by `tracked_path_overflow` below. -/
def parse_tracked (l : Str) : Option GitStatusEntry :=
  match l with
  | [] => none
  | _ :: rest =>
    match scanTokN 2 rest with
    | none => none
    | some (xy, r1) =>
      match skipToks 6 r1 with
      | none => none
      | some r2 =>
        match scanTok r2 with
        | none => none
        | some (p, _) =>
          match xy with
          | [] => none
          | [a] => some ⟨p, a, '\x00'⟩
          | a :: b :: _ => some ⟨p, a, b⟩

/-- src/lg_v2.c lines 343-354: `sscanf(line, "? %s", path)` applied to a
line whose first character is `?`: the literal matches that character, the
whitespace directive skips blanks, and `%s` reads one token as the path.
This function models the value read; the write footprint of the unbounded
`%s` against its fixed `char path[PATH_MAX]` destination (line 345) is
modelled by `untracked_path_overflow` below. -/
def parse_untracked (l : Str) : Option Str :=
  match l with
  | '?' :: rest =>
    match scanTok rest with
    | none => none
    | some (t, _) => some t
  | _ => none

/-- Parser state of the v2 engine: the growing entry array together with
its current allocation capacity (`INITIAL_CAPACITY = 100`, doubled by
`realloc` in the tracked branch only). -/
structure ParseState where
  entries : List GitStatusEntry
  capacity : Nat
deriving DecidableEq, Repr

/-- Fresh context as built by `git_context_create`. -/
def init_state : ParseState := ⟨[], 100⟩

/-- The tracked (`1`/`2`) insertion of src/lg_v2.c lines 326-341: grow the
array by doubling when full (modelling `realloc` as succeeding), then
append when within capacity. -/
def add_tracked (st : ParseState) (e : GitStatusEntry) : ParseState :=
  let cap := if st.capacity ≤ st.entries.length then st.capacity * 2 else st.capacity
  if st.entries.length < cap then ⟨st.entries ++ [e], cap⟩ else ⟨st.entries, cap⟩

/-- The untracked (`?`) insertion of src/lg_v2.c lines 347-352: append only
when within capacity; this branch never grows the array. -/
def add_untracked (st : ParseState) (e : GitStatusEntry) : ParseState :=
  if st.entries.length < st.capacity then ⟨st.entries ++ [e], st.capacity⟩ else st

/-- One iteration of the v2 parse loop (src/lg_v2.c lines 320-356),
dispatching on the first character of the line. -/
def parse_one (st : ParseState) (l : Str) : ParseState :=
  match l with
  | [] => st
  | c :: _ =>
    if c = '1' ∨ c = '2' then
      match parse_tracked l with
      | some e => add_tracked st e
      | none => st
    else if c = '?' then
      match parse_untracked l with
      | some p => add_untracked st ⟨p, '?', '?'⟩
      | none => st
    else st

/-- src/lg_v2.c lines 319-356: the whole parse pass over the line list. -/
def parse_lines (ls : List Str) : ParseState :=
  List.foldl parse_one init_state ls

/-- `strtok(status_output, "\n")` splitting: newline-separated pieces. -/
def splitNlAux : Str → Str → List Str
  | [], acc => [acc.reverse]
  | c :: rest, acc =>
    if c = '\n' then acc.reverse :: splitNlAux rest [] else splitNlAux rest (c :: acc)

/-- Lines as `strtok` delivers them: empty pieces are never returned. -/
def cLines (s : Str) : List Str := List.filter (fun l => l ≠ []) (splitNlAux s [])

/-- Parse of a whole raw `git status --porcelain=v2` output. -/
def parse_raw (s : Str) : ParseState := parse_lines (cLines s)

/-- C `tolower` restricted to its ASCII behaviour, as applied at
src/lg_v2.c line 384. -/
def c_tolower (c : Char) : Char :=
  if 'A' ≤ c ∧ c ≤ 'Z' then Char.ofNat (c.toNat + 32) else c

/-- A status code counts for display when it is neither the porcelain `.`
placeholder nor a space (src/lg_v2.c lines 377-382). -/
def nonclean (c : Char) : Bool := c ≠ '.' && c ≠ ' '

/-- The scan loop of `get_file_git_status` (src/lg_v2.c lines 374-388):
first matching entry with a displayable code wins; a matching entry whose
codes are both clean lets the loop continue. -/
def lookup_go (full : Str) : List GitStatusEntry → Char
  | [] => ' '
  | e :: rest =>
    if e.path = full then
      if nonclean e.status_staged then e.status_staged
      else if nonclean e.status_unstaged then c_tolower e.status_unstaged
      else lookup_go full rest
    else lookup_go full rest

/-- src/lg_v2.c lines 364-389 (`get_file_git_status`): build the full key
by prepending the relative prefix, then scan the entries. -/
def get_file_git_status (ctx : GitContext) (filename : Str) : Char :=
  lookup_go (ctx.rel_pfx ++ filename) ctx.statuses

/-- The lookup contract as the specification words it (§4.4): find the
(unique) entry matching the full key, then apply the staged-first
precedence; no match yields the clean sentinel. -/
def lookup_spec (ctx : GitContext) (filename : Str) : Char :=
  match List.find? (fun e => e.path = (ctx.rel_pfx ++ filename : Str)) ctx.statuses with
  | some e =>
    if nonclean e.status_staged then e.status_staged
    else if nonclean e.status_unstaged then c_tolower e.status_unstaged
    else ' '
  | none => ' '

/-- src/lg_v2.c lines 305-311: the relative-prefix computation.  The code
compares only the string lengths of `cwd` and `git_root`; when `cwd` is
strictly longer it duplicates the suffix of `cwd` starting one character
past the root's length (skipping the assumed separator) and, when that
suffix is non-empty, appends a trailing `/`. -/
def compute_rel_pfx (git_root cwd : Str) : Str :=
  if git_root.length < cwd.length then
    let r := List.drop (git_root.length + 1) cwd
    if r = [] then r else r ++ ['/']
  else []

/-- The newline strip of src/lg_v2.c lines 292-295: drop one trailing
newline from the captured `git rev-parse --show-toplevel` output. -/
def chompNl (s : Str) : Str :=
  match s.getLast? with
  | some '\n' => s.dropLast
  | _ => s

/-- The read loop of `exec_git_command` (src/lg_v2.c lines 246-253): the
parent reads into `output` until EOF or until `output_size - 1` bytes are
stored, then NUL-terminates; the captured output is the child's stdout
truncated to one byte less than the buffer size. -/
def exec_capture (childOut : Str) (output_size : Nat) : Str :=
  List.take (output_size - 1) childOut

/-- What the environment contributes to one `exec_git_command` call: the
child's stdout bytes and how it terminated (`WIFEXITED`/`WEXITSTATUS`). -/
structure ChildRun where
  out : Str
  exited : Bool
  exitCode : Nat
deriving DecidableEq, Repr

/-- The success computation at src/lg_v2.c line 260: exit status zero after
a normal exit. -/
def child_success (c : ChildRun) : Bool := c.exited && c.exitCode == 0

/-- src/lg_v2.c lines 216-261 (`exec_git_command`), as observed by the
caller: the filled output buffer together with the success flag (`0` mapped
to `true`, `-1` to `false`).  The buffer is filled with the truncated child
output regardless of how the child exited. -/
def exec_git_command (c : ChildRun) (output_size : Nat) : Str × Bool :=
  (exec_capture c.out output_size, child_success c)

/-- `PATH_MAX`, the buffer size used for the `git rev-parse` capture. -/
def cPATH_MAX : Nat := 4096

/-- The 64 KiB status-output buffer of src/lg_v2.c line 315. -/
def cSTATUS_BUF : Nat := 65536

/-- src/lg_v2.c lines 264-361 (`get_git_status`), with the two child
processes supplied by the environment and `cwd` the current directory
after the `chdir`: a failing root query aborts with no context; otherwise
the prefix is computed and the status output is parsed only when its query
succeeded, an unsuccessful status query leaving the context empty. -/
def get_git_status_v2 (rootRun statusRun : ChildRun) (cwd : Str) : Option GitContext :=
  if child_success rootRun then
    let git_root := chompNl (exec_capture rootRun.out cPATH_MAX)
    let pfx := compute_rel_pfx git_root cwd
    if child_success statusRun then
      some ⟨(parse_raw (exec_capture statusRun.out cSTATUS_BUF)).entries, pfx⟩
    else some ⟨[], pfx⟩
  else none

/-- src/lg_v2.c lines 392-408 (`get_git_color`): the color token for each
display status character, empty for anything else. -/
def get_git_color (c : Char) : String :=
  if c = 'M' then "\x1b[38;5;214m"
  else if c = 'm' then "\x1b[38;5;178m"
  else if c = 'A' then "\x1b[38;5;34m"
  else if c = 'a' then "\x1b[38;5;28m"
  else if c = 'D' then "\x1b[38;5;167m"
  else if c = 'd' then "\x1b[38;5;131m"
  else if c = 'R' then "\x1b[38;5;141m"
  else if c = 'r' then "\x1b[38;5;97m"
  else if c = 'C' then "\x1b[38;5;73m"
  else if c = 'c' then "\x1b[38;5;66m"
  else if c = '?' then "\x1b[38;5;245m"
  else if c = '!' then "\x1b[38;5;240m"
  else ""

/-- src/lg_v2.c lines 411-428 (`format_git_status`): the glyph written for
each display status character (a leading space then the symbol; two blanks
for the clean case). -/
def format_git_status (c : Char) : String :=
  if c = 'M' ∨ c = 'A' ∨ c = 'D' ∨ c = 'R' ∨ c = 'C' then " ●"
  else if c = 'm' ∨ c = 'a' ∨ c = 'd' ∨ c = 'r' ∨ c = 'c' then " ○"
  else if c = '?' then " ?"
  else if c = '!' then " !"
  else "  "

/-- src/lg.c lines 133-144 (the original version's `get_git_color`): one
color per staged/unstaged pair, gray for both `?` and `!`. -/
def lgc_get_git_color (c : Char) : String :=
  if c = 'M' ∨ c = 'm' then "\x1b[33m"
  else if c = 'A' ∨ c = 'a' then "\x1b[32m"
  else if c = 'D' ∨ c = 'd' then "\x1b[31m"
  else if c = 'R' ∨ c = 'r' then "\x1b[35m"
  else if c = 'C' ∨ c = 'c' then "\x1b[36m"
  else if c = '?' then "\x1b[90m"
  else if c = '!' then "\x1b[90m"
  else ""

/-- One entry of the original version's global status table
(`GitStatus` in src/lg.c): path plus the single display character. -/
structure LgcEntry where
  path : Str
  status : Char
deriving DecidableEq, Repr

/-- src/lg.c `MAX_FILES`. -/
def cMAX_FILES : Nat := 10000

/-- `sscanf(line, "%2s\t%s", status, path)` of src/lg.c lines 67 and 82:
`%2s` reads at most two characters of the first token, the whitespace
directive skips blanks, `%s` reads the path token; the first character of
the status token is the one kept. -/
def lgc_scan_diff_line (l : Str) : Option (Char × Str) :=
  match scanTokN 2 l with
  | none => none
  | some (st, r1) =>
    match scanTok r1 with
    | none => none
    | some (p, _) =>
      match st with
      | [] => none
      | c :: _ => some (c, p)

/-- The C `status[0] + 32` lowercasing of src/lg.c line 92, applied blindly
to whatever character was read. -/
def lgc_add32 (c : Char) : Char := Char.ofNat ((c.toNat + 32) % 256)

/-- The staged pass of src/lg.c lines 64-76: every parsed line is appended
(no duplicate check) while the table has room. -/
def lgc_add_staged (st : List LgcEntry) (l : Str) : List LgcEntry :=
  match lgc_scan_diff_line l with
  | some (c, p) => if st.length < cMAX_FILES then st ++ [⟨p, c⟩] else st
  | none => st

/-- The unstaged pass of src/lg.c lines 79-98: a parsed line is appended
with the lowercased code only when its path is not already present. -/
def lgc_add_unstaged (st : List LgcEntry) (l : Str) : List LgcEntry :=
  match lgc_scan_diff_line l with
  | some (c, p) =>
    if List.any st (fun e => e.path == p) then st
    else if st.length < cMAX_FILES then st ++ [⟨p, lgc_add32 c⟩] else st
  | none => st

/-- The untracked pass of src/lg.c lines 101-121: the newline-stripped
line itself is the path; appended with `?` only when non-empty and not
already present. -/
def lgc_add_untracked (st : List LgcEntry) (l : Str) : List LgcEntry :=
  if l ≠ [] then
    if List.any st (fun e => e.path == l) then st
    else if st.length < cMAX_FILES then st ++ [⟨l, '?'⟩] else st
  else st

/-- src/lg.c lines 48-122 (`get_git_status`): the three subprocess outputs
are folded in order — staged diff, unstaged diff, untracked listing. -/
def lgc_get_git_status (staged unstaged untracked : List Str) : List LgcEntry :=
  List.foldl lgc_add_untracked
    (List.foldl lgc_add_unstaged
      (List.foldl lgc_add_staged [] staged) unstaged) untracked

/-- The write footprint of one successful `sscanf` `%s` conversion whose
destination is `char path[PATH_MAX]`: on a match of token `p` the
conversion writes `p.length + 1` bytes (token plus terminating NUL) into
the 4096-byte stack buffer, which is an out-of-bounds write exactly when
`cPATH_MAX ≤ p.length`.  A failed conversion writes nothing. -/
def tok_overflow (o : Option (Str × Str)) : Bool :=
  match o with
  | none => false
  | some (p, _) => cPATH_MAX ≤ p.length

/-- Whether the `sscanf` of src/lg_v2.c line 324 performs an out-of-bounds
write on this `1`/`2` line: `%2s` writes at most three bytes into
`char xy[3]` and always fits, the six `%*s` conversions are suppressed and
write nothing, and the final `%s` writes its token into
`char path[PATH_MAX]` (declared at line 323), overflowing the stack buffer
when the token does not fit. -/
def tracked_path_overflow (l : Str) : Bool :=
  match l with
  | [] => false
  | _ :: rest =>
    match scanTokN 2 rest with
    | none => false
    | some (_, r1) =>
      match skipToks 6 r1 with
      | none => false
      | some r2 => tok_overflow (scanTok r2)

/-- Whether the `sscanf` of src/lg_v2.c line 346 performs an out-of-bounds
write on this `?` line: the `%s` writes its token into
`char path[PATH_MAX]` (declared at line 345). -/
def untracked_path_overflow (l : Str) : Bool :=
  match l with
  | [] => false
  | c :: rest => if c = '?' then tok_overflow (scanTok rest) else false

/-- Whether processing one line of the parse loop performs an
out-of-bounds path write, following the dispatch of src/lg_v2.c lines
321 and 343. -/
def line_overflows (l : Str) : Bool :=
  match l with
  | [] => false
  | c :: _ =>
    if c = '1' ∨ c = '2' then tracked_path_overflow l
    else if c = '?' then untracked_path_overflow l
    else false

/-- Whether parsing a raw status output performs any out-of-bounds path
write. -/
def parse_overflows (s : Str) : Bool := List.any (cLines s) line_overflows

/-- The whitespace-delimited fields of a line, used to state what "the last
whitespace-delimited field" of a status line is. -/
def ws_fields (l : Str) : List Str :=
  List.filter (fun t => t ≠ []) (List.splitOnP csIsSpace l)

/-- Concrete context for exercising the lookup precedence. -/
def c1ctx : GitContext :=
  ⟨[⟨("sub/f").data, 'M', 'M'⟩, ⟨("sub/g").data, '.', 'D'⟩], ("sub/").data⟩

/-- The closed status alphabet of the specification (§4.5). -/
def status_alphabet : List Char :=
  ['M', 'm', 'A', 'a', 'D', 'd', 'R', 'r', 'C', 'c', '?', '!', ' ']

/-- The specification's round-trip porcelain v2 line for an ordinary `1`
record. -/
def c3_example_line : Str :=
  ("1 M. N... 100644 100644 100644 abc123 def456 src/main.c").data

/-- A porcelain v2 rename (`2`) record: score field `R100`, post-rename
path `new.c`, tab, pre-rename path `old.c`. -/
def c3_rename_line : Str :=
  ("2 R. N... 100644 100644 100644 abc123 def456 R100 new.c\told.c").data

/-- An untracked line whose path contains a space. -/
def c5_space_line : Str := ("? my file.txt").data

/-- A raw status output naming the same path `f` on a tracked line and on
an untracked line. -/
def c2_dup_raw : Str := ("1 .M N... 100644 100644 100644 h1 h2 f\n? f").data

/-- A successful `git rev-parse --show-toplevel` child for repository root
`/r`. -/
def c2_rootRun : ChildRun := ⟨("/r\n").data, true, 0⟩

/-- A successful `git status` child emitting the duplicated-path output. -/
def c2_statusRun : ChildRun := ⟨c2_dup_raw, true, 0⟩

/-- A well-formed line preceding the malformed one. -/
def c7pre : List Str := [("1 M. N... 100644 100644 100644 abc123 def456 src/main.c").data]

/-- A well-formed line following the malformed one. -/
def c7post : List Str := [("? newfile2.txt").data]

/-- A truncated `1` record failing the expected field count. -/
def c7bad : Str := ("1 M.").data

/-- A child not exiting with status zero while having produced output. -/
def c8_fail_run : ChildRun := ⟨("partial").data, true, 1⟩

/-- A successful root-query child. -/
def c8_ok_root : ChildRun := ⟨("/r\n").data, true, 0⟩

/-- A status output exactly at the 64 KiB ceiling: one untracked line
whose path token is far longer than `PATH_MAX`. -/
def c9bad : Str := '?' :: ' ' :: List.replicate 65534 'a'

/-- A scan of the entry list finding no matching path yields the clean
sentinel. -/
lemma lookup_go_not_found (full : Str) (l : List GitStatusEntry)
    (h : ∀ e ∈ l, e.path ≠ full) : lookup_go full l = ' ' := by
  induction l with
  | nil => rfl
  | cons e rest ih =>
    have he : e.path ≠ full := h e (List.mem_cons_self e rest)
    simp only [lookup_go, if_neg he]
    exact ih (fun x hx => h x (List.mem_cons_of_mem e hx))

/-- On a context whose paths are pairwise distinct, the code's scan agrees
with the specification's find-then-apply-precedence contract. -/
lemma lookup_go_eq_spec (pfx filename : Str) (l : List GitStatusEntry)
    (h : (l.map GitStatusEntry.path).Nodup) :
    lookup_go (pfx ++ filename) l = lookup_spec ⟨l, pfx⟩ filename := by
  unfold lookup_spec
  induction l with
  | nil => rfl
  | cons e rest ih =>
    rw [List.map_cons, List.nodup_cons] at h
    obtain ⟨hnm, hrest⟩ := h
    by_cases hp : e.path = (pfx ++ filename : Str)
    · rw [List.find?_cons_of_pos _ (by simpa using hp)]
      simp only [lookup_go, if_pos hp]
      by_cases h1 : nonclean e.status_staged
      · simp [h1]
      · by_cases h2 : nonclean e.status_unstaged
        · simp [h1, h2]
        · simp only [h1, h2, if_neg, Bool.false_eq_true, if_false]
          apply lookup_go_not_found
          intro x hx hcontra
          exact hnm (hp ▸ hcontra ▸ List.mem_map_of_mem GitStatusEntry.path hx)
    · rw [List.find?_cons_of_neg _ (by simpa using hp)]
      simp only [lookup_go, if_neg hp]
      exact ih hrest

/-- A line on which both record parsers fail leaves the parse state
untouched, whatever its first character is. -/
lemma parse_one_skip (l : Str) (h1 : parse_tracked l = none)
    (h2 : parse_untracked l = none) (st : ParseState) : parse_one st l = st := by
  cases l with
  | nil => rfl
  | cons c rest =>
    simp only [parse_one]
    by_cases hc : c = '1' ∨ c = '2'
    · simp [hc, h1]
    · by_cases hq : c = '?'
      · subst hq
        simp [hc, h2]
      · simp [hc, hq]

/-- Each parsed line adds at most one entry. -/
lemma parse_one_length (st : ParseState) (l : Str) :
    (parse_one st l).entries.length ≤ st.entries.length + 1 := by
  cases l with
  | nil => simp [parse_one]
  | cons c rest =>
    simp only [parse_one]
    by_cases hc : c = '1' ∨ c = '2'
    · simp only [if_pos hc]
      cases hpt : parse_tracked (c :: rest) with
      | none => simp
      | some e =>
        simp only [add_tracked]
        split <;> split <;> simp
    · by_cases hq : c = '?'
      · simp only [if_neg hc, if_pos hq]
        cases hpu : parse_untracked (c :: rest) with
        | none => simp
        | some p =>
          simp only [add_untracked]
          split <;> simp
      · simp [hc, hq]

/-- The parse pass adds at most one entry per line. -/
lemma foldl_parse_one_length (ls : List Str) (st : ParseState) :
    (List.foldl parse_one st ls).entries.length ≤ st.entries.length + ls.length := by
  induction ls generalizing st with
  | nil => simp
  | cons l ls ih =>
    simp only [List.foldl_cons, List.length_cons]
    have h1 := ih (parse_one st l)
    have h2 := parse_one_length st l
    omega

/-- Dropping one character more than a left factor's length lands right
after the following character. -/
lemma drop_length_succ_append (root : Str) (c : Char) (rest : Str) :
    List.drop (root.length + 1) (root ++ c :: rest) = rest := by
  induction root with
  | nil => simp
  | cons a as ih => simp [ih]

/-- A run of one repeated satisfying character is taken whole. -/
lemma takeWhile_replicate_pos (p : Char → Bool) (n : Nat) (a : Char) (h : p a = true) :
    List.takeWhile p (List.replicate n a) = List.replicate n a := by
  induction n with
  | zero => rfl
  | succ n ih => simp [List.replicate_succ, List.takeWhile_cons, h, ih]

/-- A run of one repeated non-satisfying character is dropped nowhere. -/
lemma dropWhile_replicate_neg (p : Char → Bool) (n : Nat) (a : Char) (h : p a = false) :
    List.dropWhile p (List.replicate n a) = List.replicate n a := by
  cases n with
  | zero => rfl
  | succ n => simp [List.replicate_succ, List.dropWhile_cons, h]

/-- Splitting a newline-free string produces the single accumulated
piece. -/
lemma splitNlAux_no_newline (s : Str) (h : '\n' ∉ s) :
    ∀ acc : Str, splitNlAux s acc = [acc.reverse ++ s] := by
  induction s with
  | nil => intro acc; simp [splitNlAux]
  | cons c rest ih =>
    intro acc
    simp only [List.mem_cons, not_or] at h
    obtain ⟨h1, h2⟩ := h
    have hc : ¬ c = '\n' := fun hh => h1 hh.symm
    simp only [splitNlAux, if_neg hc]
    rw [ih h2 (c :: acc)]
    simp

/-- A non-empty newline-free output is one single line under the `strtok`
splitting. -/
lemma cLines_no_newline (s : Str) (h1 : '\n' ∉ s) (h2 : s ≠ []) : cLines s = [s] := by
  unfold cLines
  rw [splitNlAux_no_newline s h1 []]
  simp [h2]

/-- Scanning a token after one leading blank reads the whole repeated
run. -/
lemma scanTok_space_replicate (n : Nat) (h : n ≠ 0) :
    scanTok (' ' :: List.replicate n 'a') = some (List.replicate n 'a', []) := by
  unfold scanTok dropWs
  rw [List.dropWhile_cons, if_pos (by decide : csIsSpace ' ' = true),
    dropWhile_replicate_neg _ n 'a' (by decide),
    takeWhile_replicate_pos _ n 'a' (by decide)]
  have hne : List.replicate n 'a' ≠ [] := by
    intro hh
    have hlen := congrArg List.length hh
    simp at hlen
    exact h hlen
  simp [hne, List.drop_length]

/-- The 64 KiB read ceiling truncates the oversized untracked line to
65535 bytes. -/
lemma exec_capture_c9bad :
    exec_capture c9bad cSTATUS_BUF = '?' :: ' ' :: List.replicate 65533 'a' := by
  unfold exec_capture c9bad cSTATUS_BUF
  rw [show (65536 - 1 : Nat) = 65534 + 1 by norm_num, List.take_succ_cons,
    show (65534 : Nat) = 65533 + 1 by norm_num, List.take_succ_cons,
    List.take_replicate, min_eq_left (by norm_num)]

/-- The truncated untracked line still carries a 65533-byte path token, so
its `%s` write overflows `char path[PATH_MAX]`. -/
lemma untracked_overflow_c9 :
    untracked_path_overflow ('?' :: ' ' :: List.replicate 65533 'a') = true := by
  simp only [untracked_path_overflow]
  rw [if_true, scanTok_space_replicate 65533 (by norm_num)]
  simp only [tok_overflow]
  rw [List.length_replicate]
  rfl

/-- The parse-loop dispatch reaches the overflowing untracked scan. -/
lemma line_overflows_c9 :
    line_overflows ('?' :: ' ' :: List.replicate 65533 'a') = true := by
  simp only [line_overflows]
  rw [if_true, untracked_overflow_c9,
    if_neg (by decide : ¬ (('?' : Char) = '1' ∨ ('?' : Char) = '2'))]

/-- Claim C1: on every status context satisfying the data model's
per-path-uniqueness invariant (§3) and every entry name, lookup is total
and follows the precedence contract — the matching entry's staged code is
returned verbatim when it is neither `.` nor space, else the lowercase
form of its unstaged code when that is neither `.` nor space, else the
single-space clean sentinel, which is also returned when no entry matches;
in particular the staged code wins over the unstaged one. -/
theorem c1_lookup_precedence (ctx : GitContext) (filename : Str)
    (h : (ctx.statuses.map GitStatusEntry.path).Nodup) :
    get_file_git_status ctx filename = lookup_spec ctx filename := by
  obtain ⟨l, pfx⟩ := ctx
  exact lookup_go_eq_spec pfx filename l h

/-- Witness for C1: a concrete context with a both-staged-and-unstaged
entry and a clean entry; lookup returns the staged `M`, the lowercase `d`,
and the sentinel for an absent path. -/
theorem c1_lookup_precedence_witness :
    ((c1ctx.statuses.map GitStatusEntry.path).Nodup) ∧
    get_file_git_status c1ctx (("f").data) = lookup_spec c1ctx (("f").data) ∧
    get_file_git_status c1ctx (("f").data) = 'M' ∧
    get_file_git_status c1ctx (("g").data) = 'd' ∧
    get_file_git_status c1ctx (("h").data) = ' ' :=
  ⟨by decide, c1_lookup_precedence c1ctx (("f").data) (by decide), by decide,
    by decide, by decide⟩

/-- Counterexample for C2: the v2 engine, fed a status output naming path
`f` on a tracked line and again on an untracked line, produces a context
holding two entries for that path — there is no duplicate detection before
insertion, so per-path uniqueness fails. -/
theorem c2_dedup_counterexample :
    get_git_status_v2 c2_rootRun c2_statusRun (("/r").data) =
      some ⟨[⟨("f").data, '.', 'M'⟩, ⟨("f").data, '?', '?'⟩], []⟩ ∧
    ¬ (([⟨("f").data, '.', 'M'⟩, ⟨("f").data, '?', '?'⟩] : List GitStatusEntry).map
        GitStatusEntry.path).Nodup := by
  refine ⟨by decide, by decide⟩

/-- Claim C2 as amended: the first-seen-wins merge holds in the original
program (src/lg.c), whose unstaged and untracked passes check for the path
before inserting — the same path fed through staged, unstaged and
untracked sources in sequence yields exactly one entry, equal to the first
one constructed.  The v2 porcelain parser performs no such check, so there
uniqueness holds only when the raw output names each path at most once. -/
theorem c2_dedup_lgc_first_wins (l1 l2 l3 : Str) (k1 k2 : Char) (p : Str)
    (h1 : lgc_scan_diff_line l1 = some (k1, p))
    (h2 : lgc_scan_diff_line l2 = some (k2, p))
    (h3 : l3 = p) (hp : p ≠ []) :
    lgc_get_git_status [l1] [l2] [l3] = [⟨p, k1⟩] := by
  unfold lgc_get_git_status
  simp only [List.foldl_cons, List.foldl_nil]
  rw [show lgc_add_staged [] l1 = [⟨p, k1⟩] from by
    simp [lgc_add_staged, h1, cMAX_FILES]]
  rw [show lgc_add_unstaged [⟨p, k1⟩] l2 = [⟨p, k1⟩] from by
    simp [lgc_add_unstaged, h2]]
  subst h3
  simp [lgc_add_untracked, hp]

/-- Witness for the amended C2: path `f` arriving as staged `M`, unstaged
`M` and untracked in sequence yields the single staged entry. -/
theorem c2_dedup_lgc_first_wins_witness :
    lgc_scan_diff_line (("M\tf").data) = some ('M', ("f").data) ∧
    (("f").data : Str) ≠ [] ∧
    lgc_get_git_status [("M\tf").data] [("M\tf").data] [("f").data] =
      [⟨("f").data, 'M'⟩] :=
  ⟨by decide, by decide,
    c2_dedup_lgc_first_wins (("M\tf").data) (("M\tf").data) (("f").data) 'M' 'M'
      (("f").data) (by decide) (by decide) (by decide) (by decide)⟩

/-- Claim C3 (code bug, evaluated): the specification's `1`-record
round-trip holds — the example line parses to staged `M`, unstaged `.`,
path `src/main.c`, and lookup of `main.c` under prefix `src/` returns `M`
— but on a rename (`2`) record the parser stores the ninth
whitespace-delimited field, which is the similarity-score field `R100`,
not the post-rename path `new.c` and not the field the line ends with
(`old.c`), so renamed files can never match a directory entry. -/
theorem c3_rename_path_divergence :
    (parse_raw c3_example_line).entries = [⟨("src/main.c").data, 'M', '.'⟩] ∧
    get_file_git_status
      ⟨(parse_raw c3_example_line).entries, ("src/").data⟩ (("main.c").data) = 'M' ∧
    parse_tracked c3_rename_line = some ⟨("R100").data, 'R', '.'⟩ ∧
    (ws_fields c3_rename_line).getLast? = some (("old.c").data) ∧
    (("R100").data : Str) ≠ ("new.c").data ∧
    (("R100").data : Str) ≠ ("old.c").data := by
  refine ⟨by decide, by decide, by decide, by decide, by decide, by decide⟩

/-- Counterexample for C4: the code never checks that the repository root
is actually a prefix of the current directory — for root `/r` and the
longer, unrelated directory `/abcd` the claim requires the empty prefix,
but the code produces `cd/`. -/
theorem c4_prefix_counterexample :
    List.isPrefixOf (("/r").data) (("/abcd").data) = false ∧
    (("/r").data : Str).length < (("/abcd").data : Str).length ∧
    compute_rel_pfx (("/r").data) (("/abcd").data) = ("cd/").data := by
  refine ⟨by decide, by decide, by decide⟩

/-- Claim C4 as amended: the computation tests only that the current
directory string is strictly longer than the root; when it is, the result
is the suffix of the current directory starting one character past the
root's length, with a trailing separator appended when non-empty.  On
strictly nested directories (root ++ `/` ++ rest) this is rest ++ `/`; for
`/r` and `/r/sub` it is `sub/`; for `/r` and `/r` it is empty; and every
non-empty result ends with a separator. -/
theorem c4_prefix_amended :
    compute_rel_pfx (("/r").data) (("/r/sub").data) = ("sub/").data ∧
    compute_rel_pfx (("/r").data) (("/r").data) = [] ∧
    (∀ root rest : Str,
      compute_rel_pfx root (root ++ '/' :: rest) =
        if rest = [] then [] else rest ++ ['/']) ∧
    (∀ root cwd : Str,
      compute_rel_pfx root cwd = [] ∨ ∃ p, compute_rel_pfx root cwd = p ++ ['/']) := by
  refine ⟨by decide, by decide, ?_, ?_⟩
  · intro root rest
    have hlt : root.length < (root ++ '/' :: rest).length := by
      simp [List.length_append]
    have hdrop := drop_length_succ_append root '/' rest
    by_cases hr : rest = []
    · subst hr
      simp [compute_rel_pfx, hlt, hdrop]
    · simp [compute_rel_pfx, hlt, hdrop, hr]
  · intro root cwd
    by_cases hlt : root.length < cwd.length
    · by_cases hr : List.drop (root.length + 1) cwd = []
      · left
        simp [compute_rel_pfx, if_pos hlt, hr]
      · right
        refine ⟨List.drop (root.length + 1) cwd, ?_⟩
        simp [compute_rel_pfx, if_pos hlt, hr]
    · left
      simp [compute_rel_pfx, if_neg hlt]

/-- Counterexample for C5: on the line `? my file.txt` the remainder after
the marker is `my file.txt`, but the parser stores only the first
whitespace-delimited token `my` as the path. -/
theorem c5_untracked_counterexample :
    (parse_raw c5_space_line).entries = [⟨("my").data, '?', '?'⟩] ∧
    (("my").data : Str) ≠ ("my file.txt").data := by
  refine ⟨by decide, by decide⟩

/-- Claim C5 as amended: for a `?` line the parser takes the first
whitespace-delimited token after the marker (the entire remainder only
when the path has no embedded whitespace) as the path, with the synthetic
code pair `?`/`?`; the line `? newfile.txt` yields exactly that entry and
lookup of the path returns `?`. -/
theorem c5_untracked_amended :
    (∀ (st : ParseState) (rest tok r : Str), st.entries.length < st.capacity →
      scanTok rest = some (tok, r) →
      parse_one st ('?' :: rest) = ⟨st.entries ++ [⟨tok, '?', '?'⟩], st.capacity⟩) ∧
    (parse_raw (("? newfile.txt").data)).entries = [⟨("newfile.txt").data, '?', '?'⟩] ∧
    get_file_git_status
      ⟨(parse_raw (("? newfile.txt").data)).entries, []⟩ (("newfile.txt").data) = '?' := by
  refine ⟨?_, by decide, by decide⟩
  intro st rest tok r hcap hscan
  simp [parse_one, parse_untracked, hscan, add_untracked, hcap]

/-- Witness for the amended C5: a fresh state and the line `? new2.txt`. -/
theorem c5_untracked_amended_witness :
    init_state.entries.length < init_state.capacity ∧
    scanTok ((" new2.txt").data) = some (("new2.txt").data, []) ∧
    parse_one init_state ('?' :: (" new2.txt").data) =
      ⟨init_state.entries ++ [⟨("new2.txt").data, '?', '?'⟩], init_state.capacity⟩ :=
  ⟨by decide, by decide,
    c5_untracked_amended.1 init_state ((" new2.txt").data) (("new2.txt").data) []
      (by decide) (by decide)⟩

/-- Counterexample for C6: in the original program's color table
(src/lg.c) the characters of the alphabet do not map to pairwise distinct
color tokens — `?` and `!` share gray, and `M`/`m` share yellow. -/
theorem c6_color_counterexample :
    (('?' : Char) ≠ '!') ∧ lgc_get_git_color '?' = lgc_get_git_color '!' ∧
    (('M' : Char) ≠ 'm') ∧ lgc_get_git_color 'M' = lgc_get_git_color 'm' := by
  refine ⟨by decide, by decide, by decide, by decide⟩

/-- Claim C6 as amended: in the v2 program the mapping is as claimed —
uppercase codes map to the solid glyph, lowercase to the hollow glyph, `?`
and `!` to their own glyphs with gray colors, the space sentinel to the
blank glyph and the empty color token, and the thirteen characters map to
pairwise distinct color tokens; in the original program's table the
distinctness conjunct fails. -/
theorem c6_presentation_amended :
    (∀ c ∈ (['M', 'A', 'D', 'R', 'C'] : List Char), format_git_status c = " ●") ∧
    (∀ c ∈ (['m', 'a', 'd', 'r', 'c'] : List Char), format_git_status c = " ○") ∧
    format_git_status '?' = " ?" ∧
    format_git_status '!' = " !" ∧
    format_git_status ' ' = "  " ∧
    get_git_color ' ' = "" ∧
    get_git_color '?' = "\x1b[38;5;245m" ∧
    get_git_color '!' = "\x1b[38;5;240m" ∧
    (status_alphabet.map get_git_color).Nodup ∧
    ¬ (status_alphabet.map lgc_get_git_color).Nodup := by
  refine ⟨by decide, by decide, by decide, by decide, by decide, by decide, by decide,
    by decide, by decide, by decide⟩

/-- Claim C7: a line on which the field extraction fails is skipped
without aborting the parse — the result over any line list with the
malformed line interleaved equals the result without it, so every
well-formed line still produces its entry and the malformed one produces
none. -/
theorem c7_malformed_skip (pre post : List Str) (bad : Str)
    (h1 : parse_tracked bad = none) (h2 : parse_untracked bad = none) :
    parse_lines (pre ++ bad :: post) = parse_lines (pre ++ post) := by
  unfold parse_lines
  rw [List.foldl_append, List.foldl_append, List.foldl_cons, parse_one_skip bad h1 h2]

/-- Witness for C7: the truncated record `1 M.` between two well-formed
lines; both well-formed lines still produce their entries. -/
theorem c7_malformed_skip_witness :
    parse_tracked c7bad = none ∧ parse_untracked c7bad = none ∧
    parse_lines (c7pre ++ c7bad :: c7post) = parse_lines (c7pre ++ c7post) ∧
    (parse_lines (c7pre ++ c7bad :: c7post)).entries.length = 2 :=
  ⟨by decide, by decide, c7_malformed_skip c7pre c7post c7bad (by decide) (by decide),
    by decide⟩

/-- Counterexample for C8: a child that exits with status 1 after writing
`partial` — the runner reports failure yet the output buffer is not empty,
and an engine whose root query succeeds but whose status query fails
returns an empty context, not no context. -/
theorem c8_runner_counterexample :
    child_success c8_fail_run = false ∧
    (exec_git_command c8_fail_run 100).2 = false ∧
    (exec_git_command c8_fail_run 100).1 ≠ [] ∧
    get_git_status_v2 c8_ok_root c8_fail_run (("/r").data) = some ⟨[], []⟩ ∧
    get_git_status_v2 c8_ok_root c8_fail_run (("/r").data) ≠ none := by
  refine ⟨by decide, by decide, by decide, by decide, by decide⟩

/-- Claim C8 as amended: the runner reports success exactly when the child
exits with status zero; on failure the buffer still holds the partial
captured output but the engine never consumes it — a failing root query
yields no context, and a failing status query yields a context with no
entries, on which every lookup returns the clean sentinel, so the listing
proceeds without status rather than erroring. -/
theorem c8_runner_amended :
    (∀ (c : ChildRun) (n : Nat),
      (exec_git_command c n).2 = true ↔ (c.exited = true ∧ c.exitCode = 0)) ∧
    (∀ (r s : ChildRun) (cwd : Str),
      child_success r = false → get_git_status_v2 r s cwd = none) ∧
    (∀ (r s : ChildRun) (cwd : Str),
      child_success r = true → child_success s = false →
      get_git_status_v2 r s cwd =
        some ⟨[], compute_rel_pfx (chompNl (exec_capture r.out cPATH_MAX)) cwd⟩ ∧
      ∀ name : Str,
        get_file_git_status
          ⟨[], compute_rel_pfx (chompNl (exec_capture r.out cPATH_MAX)) cwd⟩ name = ' ') := by
  refine ⟨?_, ?_, ?_⟩
  · intro c n
    simp [exec_git_command, child_success]
  · intro r s cwd h
    simp [get_git_status_v2, h]
  · intro r s cwd h1 h2
    refine ⟨by simp [get_git_status_v2, h1, h2], ?_⟩
    intro name
    rfl

/-- Witness for the amended C8: concrete successful and failing children
exercising both failure positions. -/
theorem c8_runner_amended_witness :
    (child_success c8_ok_root = true ∧ child_success c8_fail_run = false) ∧
    get_git_status_v2 c8_fail_run c8_ok_root [] = none ∧
    (get_git_status_v2 c8_ok_root c8_fail_run [] =
        some ⟨[], compute_rel_pfx (chompNl (exec_capture c8_ok_root.out cPATH_MAX)) []⟩ ∧
      ∀ name : Str,
        get_file_git_status
          ⟨[], compute_rel_pfx (chompNl (exec_capture c8_ok_root.out cPATH_MAX)) []⟩ name = ' ') :=
  ⟨⟨by decide, by decide⟩,
    c8_runner_amended.2.1 c8_fail_run c8_ok_root [] (by decide),
    c8_runner_amended.2.2 c8_ok_root c8_fail_run [] (by decide) (by decide)⟩

/-- Claim C9 (code bug, evaluated): for the 65536-byte output consisting
of one untracked line with a 65534-byte path token, the runner-side
conjuncts hold — the capture is truncated to exactly the ceiling minus one
bytes, is a prefix of the child output, and its terminating NUL index
stays strictly inside the buffer — but the parser then hands the truncated
line to `sscanf`, whose unbounded `%s` conversion matches a 65533-byte
token and writes it into the fixed `char path[PATH_MAX]` stack buffer: an
out-of-bounds write, so parsing the truncated output is not crash-free as
the claim requires. -/
theorem c9_truncation_overflow :
    c9bad.length = cSTATUS_BUF ∧
    (exec_capture c9bad cSTATUS_BUF).length = cSTATUS_BUF - 1 ∧
    (∃ t, exec_capture c9bad cSTATUS_BUF ++ t = c9bad) ∧
    (exec_capture c9bad cSTATUS_BUF).length < cSTATUS_BUF ∧
    scanTok (' ' :: List.replicate 65533 'a') = some (List.replicate 65533 'a', []) ∧
    cPATH_MAX ≤ (List.replicate 65533 'a' : Str).length ∧
    parse_overflows (exec_capture c9bad cSTATUS_BUF) = true := by
  have hc := exec_capture_c9bad
  have hlen : (exec_capture c9bad cSTATUS_BUF).length = cSTATUS_BUF - 1 := by
    rw [hc, List.length_cons, List.length_cons, List.length_replicate]
    decide
  have hnl : ('\n') ∉ ('?' :: ' ' :: List.replicate 65533 'a' : Str) := by
    intro hmem
    simp only [List.mem_cons, List.mem_replicate] at hmem
    rcases hmem with h | h | ⟨-, h⟩ <;> exact absurd h (by decide)
  refine ⟨?_, hlen, ⟨List.drop (cSTATUS_BUF - 1) c9bad, List.take_append_drop _ _⟩, ?_,
    scanTok_space_replicate 65533 (by norm_num), ?_, ?_⟩
  · unfold c9bad cSTATUS_BUF
    rw [List.length_cons, List.length_cons, List.length_replicate]
  · rw [hlen]
    decide
  · rw [List.length_replicate]
    decide
  · rw [hc]
    unfold parse_overflows
    rw [cLines_no_newline _ hnl (List.cons_ne_nil _ _), List.any_cons, List.any_nil,
      line_overflows_c9]
    rfl

/-- Claim C10: for every character outside the closed alphabet both
presentation functions fall to the clean case — blank glyph and empty
color token, the exact values produced for the space sentinel — so an
unexpected artifact renders indistinguishably from a clean file. -/
theorem c10_total_fallback (c : Char)
    (h : c ∉ (['M', 'm', 'A', 'a', 'D', 'd', 'R', 'r', 'C', 'c', '?', '!', ' '] : List Char)) :
    format_git_status c = format_git_status ' ' ∧
    get_git_color c = get_git_color ' ' ∧
    format_git_status c = "  " ∧
    get_git_color c = "" := by
  simp only [List.mem_cons, List.not_mem_nil, or_false] at h
  push_neg at h
  obtain ⟨hM, hm, hA, ha, hD, hd, hR, hr, hC, hc, hq, he, hs⟩ := h
  refine ⟨?_, ?_, ?_, ?_⟩ <;>
    simp [format_git_status, get_git_color, hM, hm, hA, ha, hD, hd, hR, hr, hC, hc, hq, he]

/-- Witness for C10: the character `Z` is outside the alphabet and renders
as clean. -/
theorem c10_total_fallback_witness :
    (('Z' : Char) ∉ (['M', 'm', 'A', 'a', 'D', 'd', 'R', 'r', 'C', 'c', '?', '!', ' '] : List Char)) ∧
    (format_git_status 'Z' = format_git_status ' ' ∧
     get_git_color 'Z' = get_git_color ' ' ∧
     format_git_status 'Z' = "  " ∧
     get_git_color 'Z' = "") :=
  ⟨by decide, c10_total_fallback 'Z' (by decide)⟩
